import Mathlib

/-!
Verification of the PHQ-9 Companion repository (client `App.jsx`, its earlier
variant, and `server/server.js`) against its natural-language specification.

Texts are modelled as `List Char` (JavaScript strings are sequences of
characters; `.data` of a Lean `String` gives that sequence).  JavaScript
regular-expression tests and replacements used by the source are embedded as
structurally recursive scanners so that every definition evaluates by kernel
reduction.  All numeric scores are small non-negative integers in the source
(Likert 0..3 and their sums), so they are modelled as `Nat`.
-/

/-- The JavaScript `\s` character class (also the set trimmed by
`String.prototype.trim`): ASCII whitespace plus the Unicode space
separators, line separators and BOM. -/
def isWS (c : Char) : Bool :=
  c = ' ' || c = '\t' || c = '\n' || c = '\r' || c.toNat = 11 || c.toNat = 12 ||
  c.toNat = 0xa0 || c.toNat = 0x1680 || (0x2000 ≤ c.toNat && c.toNat ≤ 0x200a) ||
  c.toNat = 0x2028 || c.toNat = 0x2029 || c.toNat = 0x202f || c.toNat = 0x205f ||
  c.toNat = 0x3000 || c.toNat = 0xfeff

/-- Line terminators, the characters a JavaScript regex `.` does not match. -/
def isNL (c : Char) : Bool :=
  c = '\n' || c = '\r' || c.toNat = 0x2028 || c.toNat = 0x2029

/-- The JavaScript `\w` class `[A-Za-z0-9_]`, used for `\b` word boundaries. -/
def isWordChar (c : Char) : Bool :=
  ('a' ≤ c && c ≤ 'z') || ('A' ≤ c && c ≤ 'Z') || c.isDigit || c = '_'

/-- ASCII lower-casing, modelling `String.prototype.toLowerCase` on the
ASCII range (all pattern constants in the source are ASCII). -/
def jsLowerChar (c : Char) : Char :=
  if 65 ≤ c.toNat ∧ c.toNat ≤ 90 then Char.ofNat (c.toNat + 32) else c

/-- Lower-case a character sequence. -/
def lowerL (l : List Char) : List Char := l.map jsLowerChar

/-- `String.prototype.includes`: `pat` occurs contiguously in `l`. -/
def containsSub (pat : List Char) : List Char → Bool
  | [] => pat.isEmpty
  | c :: rest => pat.isPrefixOf (c :: rest) || containsSub pat rest

/-- `String.prototype.trim` on a character sequence. -/
def trimWS (l : List Char) : List Char :=
  ((l.dropWhile isWS).reverse.dropWhile isWS).reverse

/-- Pending-whitespace state for the run-collapsing scanners. -/
inductive WsPend where
  | nil
  | one (c : Char)
  | many
deriving DecidableEq

/-- Emit a pending whitespace run: a run of length one keeps its original
character, a run of length two or more becomes a single space. -/
def wsFlush : WsPend → List Char
  | .nil => []
  | .one c => [c]
  | .many => [' ']

/-- Advance the pending-run state by one whitespace character. -/
def wsBump : WsPend → Char → WsPend
  | .nil, c => .one c
  | .one _, _ => .many
  | .many, _ => .many

/-- Scanner for `replace(/(\s){2,}/g, " ")`: a maximal whitespace run of
length at least two becomes one space, a lone whitespace char is kept. -/
def collapseGo : WsPend → List Char → List Char
  | st, [] => wsFlush st
  | st, c :: rest =>
    if isWS c then collapseGo (wsBump st c) rest
    else wsFlush st ++ c :: collapseGo .nil rest

/-- `replace(/(\s){2,}/g, " ")` from the client cleanup chain. -/
def collapseWS (l : List Char) : List Char := collapseGo .nil l

/-- Scanner for `replace(/\s+/g, " ")`: every maximal whitespace run becomes
a single space (used by the server question sanitizer). -/
def squashGo (prevWs : Bool) : List Char → List Char
  | [] => []
  | c :: rest =>
    if isWS c then
      if prevWs then squashGo true rest else ' ' :: squashGo true rest
    else c :: squashGo false rest

/-- `replace(/\s+/g, " ")`. -/
def squashWS (l : List Char) : List Char := squashGo false l

/-- `"\n"`-separated join, modelling `Array.prototype.join("\n")`. -/
def joinNL : List String → String
  | [] => ""
  | [s] => s
  | s :: r :: rs => s ++ "\n" ++ joinNL (r :: rs)

/-- Space-separated join, modelling `Array.prototype.join(" ")`. -/
def joinSp : List String → String
  | [] => ""
  | [s] => s
  | s :: r :: rs => s ++ " " ++ joinSp (r :: rs)

/-- `String.prototype.split("\n")` (accumulator is kept reversed). -/
def splitNLGo (acc : List Char) : List Char → List (List Char)
  | [] => [acc.reverse]
  | c :: rest =>
    if c = '\n' then acc.reverse :: splitNLGo [] rest
    else splitNLGo (c :: acc) rest

/-- `String.prototype.split("\n")`. -/
def splitNL (l : List Char) : List (List Char) := splitNLGo [] l

/-- `trim` lifted to `String`. -/
def trimStr (s : String) : String := ⟨trimWS s.data⟩

-- ---------------------------------------------------------------------------
-- Scoring Engine (client, identical in `App.jsx` and the unnamed variant)
-- ---------------------------------------------------------------------------

/-- One stored answer: `{label, score}` as built by `handlePick`. -/
structure Answer where
  label : String
  score : Nat
deriving DecidableEq, Repr

/-- `AnswerRecord`: the `answers` object, a partial map from domain id to the
chosen answer (a missing key reads as `undefined`). -/
def AnswerMap : Type := String → Option Answer

/-- `ans[id]?.score ?? 0`. -/
def getScore (ans : AnswerMap) (id : String) : Nat :=
  ((ans id).map Answer.score).getD 0

/-- A PHQ-9 domain from the fixed `DOMAINS` array. -/
structure Domain where
  id : String
  label : String
  canonical : String
deriving DecidableEq, Repr

/-- The ten fixed PHQ-9 domains (order significant; last two are safety). -/
def DOMAINS : List Domain := [
  ⟨"interest", "Interest", "Over the last 2 weeks, how often have you been bothered by little interest or pleasure in doing things?"⟩,
  ⟨"mood", "Mood", "Over the last 2 weeks, how often have you been bothered by feeling down, depressed, or hopeless?"⟩,
  ⟨"sleep", "Sleep", "Over the last 2 weeks, how often have you been bothered by trouble falling or staying asleep, or sleeping too much?"⟩,
  ⟨"energy", "Energy", "Over the last 2 weeks, how often have you been bothered by feeling tired or having little energy?"⟩,
  ⟨"appetite", "Appetite", "Over the last 2 weeks, how often have you been bothered by poor appetite or overeating?"⟩,
  ⟨"self_worth", "Self-worth", "Over the last 2 weeks, how often have you been bothered by feeling bad about yourself—or that you are a failure or have let yourself or your family down?"⟩,
  ⟨"concentration", "Concentration", "Over the last 2 weeks, how often have you been bothered by trouble concentrating on things, such as reading or watching TV?"⟩,
  ⟨"psychomotor", "Psychomotor", "Over the last 2 weeks, how often have you been bothered by moving or speaking slowly—or being unusually fidgety or restless?"⟩,
  ⟨"si_dead", "Safety — better off dead", "Over the last 2 weeks, how often have you been bothered by thoughts that you would be better off dead?"⟩,
  ⟨"si_harm", "Safety — hurting yourself", "Over the last 2 weeks, how often have you been bothered by thoughts about intentionally harming yourself in any way?"⟩]

/-- One of the four fixed Likert answer options. -/
structure AnswerOption where
  key : String
  label : String
  score : Nat
deriving DecidableEq, Repr

/-- The fixed `OPTIONS` array. -/
def OPTIONS : List AnswerOption := [
  ⟨"0", "Not at all", 0⟩,
  ⟨"1", "Several days", 1⟩,
  ⟨"2", "More than half the days", 2⟩,
  ⟨"3", "Nearly every day", 3⟩]

/-- The eight non-safety ids summed by `totalScore`. -/
def stdIds : List String :=
  ["interest", "mood", "sleep", "energy", "appetite", "self_worth",
   "concentration", "psychomotor"]

/-- The record returned by `totalScore`. -/
structure ScoreResult where
  total : Nat
  safety : Nat
  siDead : Nat
  siHarm : Nat
deriving DecidableEq, Repr

/-- `totalScore(ans)` from the client: sum of the eight standard scores plus
the max of the two safety scores; missing entries contribute 0. -/
def totalScore (ans : AnswerMap) : ScoreResult :=
  let base := stdIds.foldl (fun s id => s + getScore ans id) 0
  let safety := Nat.max (getScore ans "si_dead") (getScore ans "si_harm")
  ⟨base + safety, safety, getScore ans "si_dead", getScore ans "si_harm"⟩

/-- `severityFromTotal(total)` from the client. -/
def severityFromTotal (total : Nat) : String :=
  if total ≤ 4 then "Minimal (0–4)"
  else if total ≤ 9 then "Mild (5–9)"
  else if total ≤ 14 then "Moderate (10–14)"
  else if total ≤ 19 then "Moderately severe (15–19)"
  else "Severe (20–27)"

-- ---------------------------------------------------------------------------
-- Narrative Sanitizer (client `App.jsx`)
-- ---------------------------------------------------------------------------

/-- The crisis-marker regex `/(988|911|immediate danger)/i` as a list of
lower-case patterns. -/
def crisisPats : List (List Char) :=
  [("988").data, ("911").data, ("immediate danger").data]

/-- `crisis.test(s)`: case-insensitive containment of a crisis marker. -/
def crisisTest (l : List Char) : Bool :=
  crisisPats.any (fun p => containsSub p (lowerL l))

/-- Scanner for `t.match(/[^.!?]+[.!?]/g)`: each match is a maximal nonempty
run of non-terminator characters followed by one terminator; unmatched
characters (stray terminators, a trailing fragment) are skipped.  The
accumulator holds the current run reversed. -/
def sentSplitGo (acc : List Char) : List Char → List (List Char)
  | [] => []
  | c :: rest =>
    if c = '.' || c = '!' || c = '?' then
      if acc.isEmpty then sentSplitGo [] rest
      else (acc.reverse ++ [c]) :: sentSplitGo [] rest
    else sentSplitGo (c :: acc) rest

/-- `t.match(/[^.!?]+[.!?]/g)` (the list of matches, possibly empty). -/
def matchSentences (l : List Char) : List (List Char) := sentSplitGo [] l

/-- `const sents = t.match(/[^.!?]+[.!?]/g) || [t]`. -/
def gpSents (t : List Char) : List (List Char) :=
  if (matchSentences t).isEmpty then [t] else matchSentences t

/-- `const filtered = omitCrisis ? sents.filter((s) => !crisis.test(s)) : sents`. -/
def gpFiltered (t : List Char) (omitCrisis : Bool) : List (List Char) :=
  if omitCrisis then (gpSents t).filter (fun s => !crisisTest s) else gpSents t

/-- One renderable rich-text unit `{text, bold, block}`. -/
structure TextPart where
  text : List Char
  bold : Bool
  block : Bool
deriving DecidableEq, Repr

/-- `makeGuidanceParts(t, {omitCrisis})` from `App.jsx`: split into sentences,
optionally drop crisis sentences, and emit trimmed inline parts, every part
but the last carrying a single trailing space. -/
def makeGuidanceParts (t : List Char) (omitCrisis : Bool) : List TextPart :=
  (gpFiltered t omitCrisis).mapIdx (fun i s =>
    { text := trimWS s ++ (if i < (gpFiltered t omitCrisis).length - 1 then [' '] else []),
      bold := i == 0 || (!omitCrisis && crisisTest s),
      block := false })

/-- `makeRecapParts(text)`: each `"\n"`-separated line becomes a block part,
bold when it contains a crisis marker. -/
def makeRecapParts (t : List Char) : List TextPart :=
  (splitNL t).map (fun ln => { text := ln, bold := crisisTest ln, block := true })

/-- Scanner for the first cleanup step `replace(/\bS\.\s*$/i, "")`: `rest`
matches the remainder `\.\s*$` of the pattern. -/
def matchesDotWsEnd : List Char → Bool
  | '.' :: r => r.all isWS
  | _ => false

/-- Find the leftmost word-boundary `S.`/`s.` that is followed only by
whitespace up to the end of the string, and delete from there on.
`prevW` records whether the previous character was a word character. -/
def stripTrailSGo (prevW : Bool) : List Char → List Char
  | [] => []
  | c :: rest =>
    if (c = 'S' || c = 's') && !prevW && matchesDotWsEnd rest then []
    else c :: stripTrailSGo (isWordChar c) rest

/-- `replace(/\bS\.\s*$/i, "")` (case-insensitive, anchored at the end). -/
def stripTrailS (l : List Char) : List Char := stripTrailSGo false l

/-- Scanner state for `replace(/\bS\.\s+/g, "")`: either normal copying
(tracking whether the previous character was a word character), or having
consumed a boundary `S`, or `S.`, or currently consuming the `\s+` run of a
completed match. -/
inductive MidSt where
  | norm (prevW : Bool)
  | seenS
  | seenSDot
  | skipping
deriving DecidableEq

/-- Scanner for `replace(/\bS\.\s+/g, "")`: removes every word-boundary
`S.` (upper-case only) together with the maximal whitespace run after it,
scanning matches left to right without overlap. -/
def stripMidGo : MidSt → List Char → List Char
  | .norm _, [] => []
  | .seenS, [] => ['S']
  | .seenSDot, [] => ['S', '.']
  | .skipping, [] => []
  | .norm pw, c :: rest =>
    if c = 'S' && !pw then stripMidGo .seenS rest
    else c :: stripMidGo (.norm (isWordChar c)) rest
  | .seenS, c :: rest =>
    if c = '.' then stripMidGo .seenSDot rest
    else 'S' :: c :: stripMidGo (.norm (isWordChar c)) rest
  | .seenSDot, c :: rest =>
    if isWS c then stripMidGo .skipping rest
    else if c = 'S' then 'S' :: '.' :: stripMidGo .seenS rest
    else 'S' :: '.' :: c :: stripMidGo (.norm (isWordChar c)) rest
  | .skipping, c :: rest =>
    if isWS c then stripMidGo .skipping rest
    else if c = 'S' then stripMidGo .seenS rest
    else c :: stripMidGo (.norm (isWordChar c)) rest

/-- `replace(/\bS\.\s+/g, "")`. -/
def stripMidS (l : List Char) : List Char := stripMidGo (.norm false) l

/-- The inline cleanup chain applied to the model reply in `finish`
(`App.jsx` lines 222–226): strip a trailing `S.`, strip mid-text `S. `,
collapse repeated whitespace, trim. -/
def cleanLLM (l : List Char) : List Char :=
  trimWS (collapseWS (stripMidS (stripTrailS l)))

-- ---------------------------------------------------------------------------
-- Conversation Controller (client `finish`)
-- ---------------------------------------------------------------------------

/-- A transcript message: a plain `{role, content}` turn or a rich
`{role, parts}` turn whose `box` flag marks the bordered caution box. -/
inductive ChatMsg where
  | plain (role : String) (content : String)
  | richParts (role : String) (ps : List TextPart) (box : Bool)
deriving DecidableEq, Repr

/-- A `{role, content}` message sent to the relay. -/
structure RelayMsg where
  role : String
  content : String
deriving DecidableEq, Repr

/-- The `SYSTEM_SUMMARY_ONLY` prompt of `App.jsx` (template literal after
`.trim()`). -/
def SYSTEM_SUMMARY_ONLY : String :=
  "You are “PHQ-9 Companion,” an empathetic pre-diagnostic wellbeing coach that helps a person reflect on their mood patterns using PHQ-9 data.\n\nYou will be given the user’s question responses, PHQ-9 total score, and severity band (Minimal, Mild, Moderate, Moderately severe, or Severe).\n\nYour job:\n1. Write a short, conversational reflection (4–7 sentences) that feels supportive, never clinical.\n2. Highlight 2–3 themes you observe from their answers (for example, low energy, loss of interest, or poor sleep).\n3. Briefly describe how these may be affecting day-to-day life, using accessible language (“you may find it harder to concentrate at work or enjoy social time”).\n4. Offer 3–5 gentle, evidence-based self-care or coping ideas linked to their elevated items (score ≥2). Examples include physical activity, social connection, journaling, healthy sleep routine, balanced meals, or short mindfulness breaks.\n5. Adjust tone and urgency:\n   - If total <10 → encouraging and normalizing.\n   - 10–14 → validating and proactive (“small steps can make a difference”).\n   - 15–19 → emphasize seeking support (“consider checking in with a trusted professional or counselor”).\n   - ≥20 or any safety >0 → stay calm but direct, including exactly one sentence with crisis options (988 in the U.S., 911 if immediate danger).\n6. End with a short motivational statement that reinforces agency (“small changes can add up,” “you deserve support,” etc.).\n\nRules:\n- Never diagnose or label the person.\n- Avoid clinical jargon or the word “patient.”\n- Avoid repeating question text verbatim.\n- Avoid stray characters, prefixes, or tokens like “S.”.\n- Keep natural paragraph spacing, 2–3 short paragraphs max."

/-- One recap list line
`` `${i + 1}. ${d.label}: ${ans[d.id]?.label ?? "Not answered"} (score ${ans[d.id]?.score ?? "-"})` ``. -/
def domainLine (ans : AnswerMap) (i : Nat) (d : Domain) : String :=
  toString (i + 1) ++ ". " ++ d.label ++ ": " ++
    (match ans d.id with | some a => a.label | none => "Not answered") ++
    " (score " ++
    (match ans d.id with | some a => toString a.score | none => "-") ++ ")"

/-- The raw safety-subscore line of the recap:
`` `(Safety details) Better off dead: ${siDead}; Harming yourself: ${siHarm}; Combined: ${Math.max(siDead, siHarm)}` ``. -/
def safetyDetailsLine (ans : AnswerMap) : String :=
  "(Safety details) Better off dead: " ++ toString (totalScore ans).siDead ++
  "; Harming yourself: " ++ toString (totalScore ans).siHarm ++
  "; Combined: " ++ toString (Nat.max (totalScore ans).siDead (totalScore ans).siHarm)

/-- The recap total line. -/
def totalLine (ans : AnswerMap) : String :=
  "PHQ-9 Total (higher of safety items used): " ++ toString (totalScore ans).total ++
  " — " ++ severityFromTotal (totalScore ans).total

/-- The list of recap lines built in `finish`. -/
def recapLines (ans : AnswerMap) : List String :=
  ["Here’s your PHQ-9 summary:", ""] ++ DOMAINS.mapIdx (domainLine ans) ++
  [totalLine ans, safetyDetailsLine ans]

/-- `recap`: the lines joined with `"\n"`. -/
def recapText (ans : AnswerMap) : String := joinNL (recapLines ans)

/-- The closing user message of the summary request. -/
def totalPrompt (ans : AnswerMap) : String :=
  "PHQ-9 total: " ++ toString (totalScore ans).total ++ " (" ++
  severityFromTotal (totalScore ans).total ++ "). Write the guidance."

/-- `msgs`: the message sequence `finish` sends to the relay for the
summary narrative. -/
def relayMsgs (ans : AnswerMap) : List RelayMsg :=
  [⟨"system", SYSTEM_SUMMARY_ONLY⟩, ⟨"user", recapText ans⟩, ⟨"user", totalPrompt ans⟩]

/-- The fallback sentence pushed when the relay call throws. -/
def fallbackSentence : String :=
  "Thanks for completing this check-in. If symptoms persist or affect daily life, consider speaking with a clinician you trust."

/-- The fixed caution-box message pushed when `safety > 0`. -/
def cautionMsg : ChatMsg :=
  .richParts "assistant"
    [⟨("Because you noted thoughts of self-harm, it’s important to reach out for support—if you ever feel unsafe or might act on these thoughts, call or text ").data, false, false⟩,
     ⟨("988").data, true, false⟩,
     ⟨(" in the U.S., or ").data, false, false⟩,
     ⟨("911").data, true, false⟩,
     ⟨(" if you are in immediate danger.").data, true, false⟩]
    true

/-- The messages appended to the transcript by one run of `finish`, with the
relay call abstracted as `relay : Option String` (`some reply` when
`callLLM` resolved, `none` when it rejected or threw — the `catch` path). -/
def finishMsgs (ans : AnswerMap) (relay : Option String) : List ChatMsg :=
  [ChatMsg.richParts "assistant" (makeRecapParts (recapText ans).data) false]
  ++ (match relay with
      | some llm =>
        [ChatMsg.richParts "assistant"
          (makeGuidanceParts (cleanLLM llm.data) (decide (0 < (totalScore ans).safety))) false]
      | none => [ChatMsg.plain "assistant" fallbackSentence])
  ++ (if 0 < (totalScore ans).safety then [cautionMsg] else [])

-- ---------------------------------------------------------------------------
-- LLM Relay (server `server.js`, two variants)
-- ---------------------------------------------------------------------------

/-- One `part` of a structured Responses-API output item (`part?.text`). -/
structure OutputPart where
  text : Option String
deriving DecidableEq, Repr

/-- One `item` of `d.output` (`item?.content || []`). -/
structure OutputItem where
  content : List OutputPart
deriving DecidableEq, Repr

/-- `choices[i].message.content` when it is a string. -/
structure ChoiceMsg where
  message_content : Option String
deriving DecidableEq, Repr

/-- The shapes of an upstream JSON body that `extractReply` inspects. -/
structure RespData where
  output_text : Option String
  output : Option (List OutputItem)
  content : Option String
  message : Option String
  choices : List ChoiceMsg
deriving DecidableEq, Repr

/-- The outcome of the single upstream `fetch`: a 2xx response with its
parsed JSON body (`none` when `r.json()` failed to parse), a non-2xx
response with its status and body text, or a network-layer error — a
connection failure or the 25 s abort — carrying the error message. -/
inductive Upstream where
  | ok (data : Option RespData)
  | httpErr (status : Nat) (body : String)
  | netErr (emsg : String)
deriving DecidableEq, Repr

/-- A JSON payload sent back by `POST /api/llm`. -/
inductive Payload where
  | reply (r : String)
  | err (e : String)
  | errStat (e : String) (status : Nat) (body : String)
  | errDetail (e detail : String)
deriving DecidableEq, Repr

/-- An HTTP response of the relay: `res.status(n).json(p)` or
`res.status(n).send(text)`. -/
inductive ApiResp where
  | json (status : Nat) (p : Payload)
  | text (status : Nat) (body : String)
deriving DecidableEq, Repr

/-- `join(' ').trim()` over the extracted texts of `d.output`:
`d.output.flatMap(item => (item?.content || []).map(part => part?.text).filter(Boolean))`. -/
def outputJoined (items : List OutputItem) : String :=
  trimStr (joinSp (items.flatMap (fun it =>
    it.content.filterMap (fun p =>
      match p.text with
      | some t => if t = "" then none else some t
      | none => none))))

namespace ServerV1

/-- `RISK_PATTERNS` of the first server variant (lines 66–75). -/
def RISK_PATTERNS : List String :=
  ["suicide", "kill myself", "end my life", "self-harm", "self harm",
   "hurt myself", "take my life", "better off dead"]

/-- `containsRiskLanguage(s)` of the first variant: lower-case, then test
substring containment of each fixed pattern. -/
def containsRiskLanguage (s : String) : Bool :=
  RISK_PATTERNS.any (fun p => containsSub p.data (lowerL s.data))

/-- `extractReply(d)` of the first variant: `output_text` if nonempty when
trimmed, else the joined `output[].content[].text` parts if nonempty, else
`choices[0].message.content` trimmed (even when empty), else `null`. -/
def extractReply (d : RespData) : Option String :=
  let t1 : Option String :=
    match d.output_text with
    | some s => if trimStr s = "" then none else some (trimStr s)
    | none => none
  let t2 : Option String :=
    match d.output with
    | some items => if outputJoined items = "" then none else some (outputJoined items)
    | none => none
  let t3 : Option String :=
    match d.choices with
    | ⟨some c⟩ :: _ => some (trimStr c)
    | _ => none
  t1 <|> t2 <|> t3

/-- The fixed fallback reply of the first variant. -/
def fallbackReply : String :=
  "Thanks for completing this check-in. Consider small steps this week and when to check in with a clinician you trust."

/-- The `POST /api/llm` handler of the first variant (lines 83–166).
`key` is `OPENAI_API_KEY`, `body` is the request `messages` field (`none`
when absent), `up` the upstream outcome.  The risk screen of this variant
only logs and never changes the response, so it does not appear here. -/
def handle (key : Option String) (body : Option (List RelayMsg)) (up : Upstream) : ApiResp :=
  match key with
  | none => .json 500 (.err "Missing OPENAI_API_KEY")
  | some _ =>
    match body with
    | none => .json 400 (.err "\"messages\" array required")
    | some messages =>
      if messages.isEmpty then .json 400 (.err "\"messages\" array required")
      else
        match up with
        | .netErr e => .json 500 (.errDetail "Server error" e)
        | .httpErr s b => .json 502 (.errStat "OpenAI error" s b)
        | .ok none => .json 200 (.reply fallbackReply)
        | .ok (some d) =>
          match extractReply d with
          | none => .json 200 (.reply fallbackReply)
          | some r => if r = "" then .json 200 (.reply fallbackReply) else .json 200 (.reply r)

end ServerV1

/-- Scan combinator: somewhere in the list, `p1` matches and `k` accepts the
remainder after it (used for the multi-part regex alternatives below). -/
def scanThen (p1 : List Char) (k : List Char → Bool) : List Char → Bool
  | [] => false
  | c :: rest => (p1.isPrefixOf (c :: rest) && k ((c :: rest).drop p1.length)) || scanThen p1 k rest

/-- `.+pat`: at least one non-line-terminator character, then `pat`. -/
def dotPlusThen (pat : List Char) : List Char → Bool
  | [] => false
  | c :: rest => !isNL c && (pat.isPrefixOf rest || dotPlusThen pat rest)

/-- `.*pat`: zero or more non-line-terminator characters, then `pat`. -/
def dotStarThen (pat : List Char) : List Char → Bool
  | [] => pat.isEmpty
  | c :: rest => pat.isPrefixOf (c :: rest) || (!isNL c && dotStarThen pat rest)

/-- `\s*:`: optional whitespace, then a colon. -/
def wsStarColon : List Char → Bool
  | [] => false
  | c :: rest => c = ':' || (isWS c && wsStarColon rest)

/-- The `SUMMARY_HINT_RX` test of the second server variant (line 293),
case-insensitive. -/
def summaryHint (s : String) : Bool :=
  let t := lowerL s.data
  containsSub ("phq-9 companion").data t ||
  containsSub ("pre-diagnostic wellbeing companion").data t ||
  scanThen ("guidance").data (dotPlusThen ("low-risk self-care").data) t ||
  scanThen ("si>0").data (dotStarThen ("988").data) t ||
  scanThen ("phq-9 total").data wsStarColon t ||
  containsSub ("write the guidance").data t ||
  containsSub ("create the 4–7 sentence guidance").data t

/-- `messages.filter(m => m?.role === 'user').slice(-4).map(m => m?.content || '').join('\n')`. -/
def recentUserText (messages : List RelayMsg) : String :=
  let users := (messages.filter (fun m => m.role == "user")).map RelayMsg.content
  joinNL (users.drop (users.length - 4))

/-- The list-marker class `[•\-*\d]` of the question sanitizer. -/
def listMark (c : Char) : Bool := c = '•' || c = '-' || c = '*' || c.isDigit

/-- Continuation of `[•\-*\d]+\s`: more class characters, then whitespace. -/
def listyTail : List Char → Bool
  | [] => false
  | c :: rest => isWS c || (listMark c && listyTail rest)

/-- `[•\-*\d]+\s` anchored at the current position. -/
def listyAt : List Char → Bool
  | [] => false
  | c :: rest => listMark c && listyTail rest

/-- `(?:^|\n)[•\-*\d]+\s` at a position after a newline. -/
def listyScan : List Char → Bool
  | [] => false
  | c :: rest => (c = '\n' && listyAt rest) || listyScan rest

/-- The full `/(?:^|\n)[•\-*\d]+\s/` test. -/
def looksListyBullet (l : List Char) : Bool := listyAt l || listyScan l

/-- After an opening slash: `.+\/` — at least one non-line-terminator
character, then another slash. -/
def afterSlash : List Char → Bool
  | [] => false
  | c :: rest =>
    !isNL c && ((match rest with | '/' :: _ => true | _ => false) || afterSlash rest)

/-- The `/\/.+\//` test: a slash-separated enumeration. -/
def slashEnum : List Char → Bool
  | [] => false
  | c :: rest => (c = '/' && afterSlash rest) || slashEnum rest

/-- The `/:.*,/` test: a colon with a comma somewhere after it. -/
def colonComma : List Char → Bool
  | [] => false
  | c :: rest => (c = ':' && rest.contains ',') || colonComma rest

/-- The case-insensitive answer-option wording test
`/Not at all|Several days|More than half the days|Nearly every day/i`. -/
def choicesRx (l : List Char) : Bool :=
  ["not at all", "several days", "more than half the days", "nearly every day"].any
    (fun p => containsSub p.data (lowerL l))

/-- JavaScript `String.prototype.length` (UTF-16 code units). -/
def jsLen (l : List Char) : Nat :=
  (l.map (fun c => if 0x10000 ≤ c.toNat then 2 else 1)).sum

/-- Number of sentence terminators, `(one.match(/[.?!]/g) || []).length`. -/
def sentEndCount (l : List Char) : Nat :=
  l.countP (fun c => c = '.' || c = '?' || c = '!')

/-- `one.endsWith('?')`. -/
def endsWithQ (l : List Char) : Bool := l.getLast? == some '?'

/-- `text.replace(/\s+/g, ' ').trim()` — the whitespace-normalized text. -/
def normalizeQ (text : String) : List Char := trimWS (squashWS text.data)

/-- `looksListy`: bullet markers, a slash-separated enumeration, or a colon
followed by a comma. -/
def looksListy (one : List Char) : Bool :=
  looksListyBullet one || slashEnum one || colonComma one

/-- `tooLong`: more than 240 UTF-16 units or more than one sentence. -/
def tooLongQ (one : List Char) : Bool :=
  decide (240 < jsLen one) || decide (1 < sentEndCount one)

/-- The fixed generic replacement question. -/
def genericQuestion : String :=
  "Over the last 2 weeks, how often have you been bothered by this area?"

/-- `sanitizeQuestionText(text)` of the second server variant
(lines 265–277). -/
def sanitizeQuestionText (text : String) : String :=
  if text = "" then text
  else
    if (choicesRx (normalizeQ text) || looksListy (normalizeQ text) || tooLongQ (normalizeQ text))
        && endsWithQ (normalizeQ text) then genericQuestion
    else ⟨normalizeQ text⟩

namespace ServerV2

/-- `'` as a character (apostrophe, U+0027), for the contraction pattern. -/
def apos : Char := Char.ofNat 39

/-- `RISK_PATTERNS` of the second server variant (lines 255–258), including
both contraction variants of the can-not-go-on phrase — one with the
typographic apostrophe U+2019, one with the ASCII apostrophe. -/
def RISK_PATTERNS : List String :=
  ["suicide", "kill myself", "end my life", "can’t go on",
   ⟨['c', 'a', 'n', apos, 't', ' ', 'g', 'o', ' ', 'o', 'n']⟩,
   "self-harm", "self harm", "hurt myself", "take my life", "better off dead"]

/-- `containsRiskLanguage(s)` of the second variant. -/
def containsRiskLanguage (s : String) : Bool :=
  RISK_PATTERNS.any (fun p => containsSub p.data (lowerL s.data))

/-- `extractReply(d)` of the second variant: like the first, with the rare
alternate shapes `d.content` / `d.message`, and requiring the
completions-style `choices` text to be nonempty when trimmed. -/
def extractReply (d : RespData) : Option String :=
  let t1 : Option String :=
    match d.output_text with
    | some s => if trimStr s = "" then none else some (trimStr s)
    | none => none
  let t2 : Option String :=
    match d.output with
    | some items => if outputJoined items = "" then none else some (outputJoined items)
    | none => none
  let t3 : Option String :=
    match d.content with
    | some s => if trimStr s = "" then none else some (trimStr s)
    | none => none
  let t4 : Option String :=
    match d.message with
    | some s => if trimStr s = "" then none else some (trimStr s)
    | none => none
  let t5 : Option String :=
    match d.choices with
    | ⟨some c⟩ :: _ => if trimStr c = "" then none else some (trimStr c)
    | _ => none
  t1 <|> t2 <|> t3 <|> t4 <|> t5

/-- The crisis short-circuit reply of the second variant. -/
def crisisReply : String :=
  "If you’re in the U.S., call 988 (or 911 if in immediate danger)."

/-- The summary-phase fallback of the second variant. -/
def fallbackReply : String :=
  "Thanks for completing this check-in. Consider which small changes feel doable this week, and when to check in with a clinician you trust."

/-- The `POST /api/llm` handler of the second variant (lines 280–356).
The system-prompt choice only affects the outbound request, which is
abstracted by `up`.  A JSON-parse failure of a 2xx upstream response
(`.ok none`) throws and lands in the outer catch. -/
def handle (key : Option String) (body : Option (List RelayMsg)) (up : Upstream) : ApiResp :=
  match key with
  | none => .text 500 "Missing OPENAI_API_KEY"
  | some _ =>
    let messages := body.getD []
    if messages.isEmpty then .json 400 (.err "\"messages\" array required")
    else
      let summary := messages.any (fun m => summaryHint m.content)
      if !summary && containsRiskLanguage (recentUserText messages) then
        .json 200 (.reply crisisReply)
      else
        match up with
        | .netErr _ => .text 500 "LLM backend failed"
        | .ok none => .text 500 "LLM backend failed"
        | .httpErr s b => .text s b
        | .ok (some d) =>
          let reply0 := (extractReply d).getD ""
          let reply1 :=
            if !summary && reply0 != "" && endsWithQ (trimStr reply0).data then
              sanitizeQuestionText reply0
            else reply0
          let reply2 := if summary && trimStr reply1 == "" then fallbackReply else reply1
          .json 200 (.reply (if reply2 = "" then "(No response)" else reply2))

end ServerV2

-- ---------------------------------------------------------------------------
-- Derived notions used by the claims
-- ---------------------------------------------------------------------------

/-- The concatenated text of a list of parts. -/
def concatText (ps : List TextPart) : List Char := (ps.map TextPart.text).flatten

/-- Join with single spaces (the shape of the concatenated guidance text:
trimmed sentences, one space between consecutive parts). -/
def sepJoin : List (List Char) → List Char
  | [] => []
  | [x] => x
  | x :: y :: r => x ++ ' ' :: sepJoin (y :: r)

/-- No two adjacent whitespace characters. -/
def noWsPair : List Char → Bool
  | [] => true
  | [_] => true
  | a :: b :: r => !(isWS a && isWS b) && noWsPair (b :: r)

/-- A complete answer record with the spec's safety example: the eight
standard domains at 3 ("Nearly every day"), `si_dead = 2`, `si_harm = 3`. -/
def ansMax : AnswerMap := fun id =>
  if id = "si_dead" then some ⟨"More than half the days", 2⟩
  else if id = "si_harm" then some ⟨"Nearly every day", 3⟩
  else if stdIds.contains id then some ⟨"Nearly every day", 3⟩
  else none

/-- End-to-end scenario B of the spec: eight standard answers at 3,
`si_dead = 0`, `si_harm = 2` (total 26, safety 2). -/
def ansB : AnswerMap := fun id =>
  if id = "si_dead" then some ⟨"Not at all", 0⟩
  else if id = "si_harm" then some ⟨"More than half the days", 2⟩
  else if stdIds.contains id then some ⟨"Nearly every day", 3⟩
  else none

/-- End-to-end scenario A of the spec: all ten answers "Not at all". -/
def ansA : AnswerMap := fun id =>
  if stdIds.contains id || id = "si_dead" || id = "si_harm" then some ⟨"Not at all", 0⟩
  else none

-- ---------------------------------------------------------------------------
-- Helper lemmas
-- ---------------------------------------------------------------------------

theorem containsSub_true_iff (pat l : List Char) : containsSub pat l = true ↔ pat <:+: l := by
  induction l with
  | nil => simp [containsSub, List.isEmpty_iff]
  | cons c rest ih =>
    simp [containsSub, List.isPrefixOf_iff_prefix, ih, List.infix_cons_iff]

theorem containsSub_le_infix (pat x y : List Char) (hxy : x <:+: y)
    (h : containsSub pat y = false) : containsSub pat x = false := by
  cases hcx : containsSub pat x with
  | false => rfl
  | true =>
    have hi : pat <:+: y := ((containsSub_true_iff pat x).1 hcx).trans hxy
    rw [(containsSub_true_iff pat y).2 hi] at h
    exact absurd h (by simp)

theorem trimWS_prefix_dropWhile (l : List Char) : trimWS l <+: l.dropWhile isWS := by
  have h2 : (l.dropWhile isWS).reverse.dropWhile isWS <:+ (l.dropWhile isWS).reverse :=
    List.dropWhile_suffix isWS
  unfold trimWS
  rw [← List.reverse_suffix, List.reverse_reverse]
  exact h2

theorem trimWS_infix_self (l : List Char) : trimWS l <:+: l :=
  (trimWS_prefix_dropWhile l).isInfix.trans (List.dropWhile_suffix isWS).isInfix

theorem dropWhile_head_false (p : Char → Bool) (l : List Char) (c : Char)
    (h : (l.dropWhile p).head? = some c) : p c = false := by
  induction l with
  | nil => simp at h
  | cons a rest ih =>
    rw [List.dropWhile_cons] at h
    by_cases hp : p a = true
    · rw [if_pos hp] at h; exact ih h
    · rw [if_neg hp] at h
      simp only [List.head?_cons, Option.some.injEq] at h
      subst h
      simpa using hp

theorem trimWS_head_false (l : List Char) (c : Char) (h : (trimWS l).head? = some c) :
    isWS c = false := by
  obtain ⟨t, ht⟩ := trimWS_prefix_dropWhile l
  apply dropWhile_head_false isWS l c
  rw [← ht]
  cases htr : trimWS l with
  | nil => rw [htr] at h; exact absurd h (by simp)
  | cons a r =>
    rw [htr] at h
    simp only [List.head?_cons, Option.some.injEq] at h
    subst h
    simp

theorem trimWS_last_false (l : List Char) (c : Char) (h : (trimWS l).getLast? = some c) :
    isWS c = false := by
  unfold trimWS at h
  rw [List.getLast?_reverse] at h
  exact dropWhile_head_false isWS _ c h

theorem trimWS_eq_self (l : List Char)
    (h1 : ∀ c, l.head? = some c → isWS c = false)
    (h2 : ∀ c, l.getLast? = some c → isWS c = false) : trimWS l = l := by
  have hd : l.dropWhile isWS = l := by
    cases l with
    | nil => rfl
    | cons a rest =>
      rw [List.dropWhile_cons, if_neg]
      simp [h1 a rfl]
  unfold trimWS
  rw [hd]
  have hr : l.reverse.dropWhile isWS = l.reverse := by
    cases hrv : l.reverse with
    | nil => rfl
    | cons a rest =>
      have ha : l.getLast? = some a := by
        rw [← List.head?_reverse, hrv]; rfl
      rw [List.dropWhile_cons, if_neg]
      simp [h2 a ha]
  rw [hr, List.reverse_reverse]

theorem trimWS_idem (l : List Char) : trimWS (trimWS l) = trimWS l :=
  trimWS_eq_self _ (trimWS_head_false l) (trimWS_last_false l)

theorem infix_append_space (pat a : List Char) (hne : pat ≠ [])
    (hlast : pat.getLast? ≠ some ' ') (h : pat <:+: a ++ [' ']) : pat <:+: a := by
  rw [← List.reverse_infix] at h ⊢
  rw [List.reverse_append] at h
  simp only [List.reverse_cons, List.reverse_nil, List.nil_append, List.singleton_append] at h
  rw [List.infix_cons_iff] at h
  cases h with
  | inl hp =>
    cases hpr : pat.reverse with
    | nil => exact absurd (by simpa using hpr) hne
    | cons c t =>
      rw [hpr, List.cons_prefix_cons] at hp
      obtain ⟨hc, _⟩ := hp
      exact absurd (by rw [← List.head?_reverse, hpr, hc]; rfl) hlast
  | inr h2 => exact h2

theorem containsSub_append_space (pat y : List Char) (hne : pat ≠ [])
    (hlast : pat.getLast? ≠ some ' ') (h : containsSub pat y = false) :
    containsSub pat (y ++ [' ']) = false := by
  cases hc : containsSub pat (y ++ [' ']) with
  | false => rfl
  | true =>
    have hi := (containsSub_true_iff _ _).1 hc
    have hy := infix_append_space pat y hne hlast hi
    rw [(containsSub_true_iff _ _).2 hy] at h
    exact absurd h (by simp)

theorem lowerL_append_space (x : List Char) : lowerL (x ++ [' ']) = lowerL x ++ [' '] := by
  unfold lowerL
  rw [List.map_append]
  congr 1

theorem crisisTest_mono (x y : List Char) (hxy : x <:+: y)
    (h : crisisTest y = false) : crisisTest x = false := by
  cases hx : crisisTest x with
  | false => rfl
  | true =>
    exfalso
    unfold crisisTest at hx
    obtain ⟨pat, hmem, hcs⟩ := List.any_eq_true.1 hx
    have hi := (containsSub_true_iff _ _).1 hcs
    have hmap : lowerL x <:+: lowerL y := hxy.map jsLowerChar
    have hy : crisisTest y = true := by
      unfold crisisTest
      exact List.any_eq_true.2 ⟨pat, hmem, (containsSub_true_iff _ _).2 (hi.trans hmap)⟩
    rw [hy] at h
    exact absurd h (by simp)

theorem crisisTest_append_space (x : List Char) (h : crisisTest x = false) :
    crisisTest (x ++ [' ']) = false := by
  cases hc : crisisTest (x ++ [' ']) with
  | false => rfl
  | true =>
    exfalso
    unfold crisisTest at hc
    obtain ⟨pat, hmem, hcs⟩ := List.any_eq_true.1 hc
    rw [lowerL_append_space] at hcs
    have hi := (containsSub_true_iff _ _).1 hcs
    have hpat : pat ≠ [] ∧ pat.getLast? ≠ some ' ' := by
      fin_cases hmem <;> exact ⟨by decide, by decide⟩
    have hx : pat <:+: lowerL x := infix_append_space pat _ hpat.1 hpat.2 hi
    have hxt : crisisTest x = true := by
      unfold crisisTest
      exact List.any_eq_true.2 ⟨pat, hmem, (containsSub_true_iff _ _).2 hx⟩
    rw [hxt] at h
    exact absurd h (by simp)

theorem mem_mapIdx_ex {α β : Type} (f : Nat → α → β) (L : List α) (p : β)
    (h : p ∈ L.mapIdx f) : ∃ i s, s ∈ L ∧ p = f i s := by
  induction L generalizing f with
  | nil => rw [List.mapIdx_nil] at h; exact absurd h (by simp)
  | cons a t ih =>
    rw [List.mapIdx_cons] at h
    rcases List.mem_cons.1 h with h0 | hmem
    · exact ⟨0, a, List.mem_cons_self a t, h0⟩
    · obtain ⟨i, s, hs, hp⟩ := ih _ hmem
      exact ⟨i + 1, s, List.mem_cons_of_mem _ hs, hp⟩

-- ---------------------------------------------------------------------------
-- Claim C3
-- ---------------------------------------------------------------------------

/-- C3: for every input text, when `makeGuidanceParts` is called with
`omitCrisis = true`, no part of its output has text matching the
crisis-marker pattern (988, 911, "immediate danger", case-insensitive),
even when the input contains multiple crisis sentences. -/
theorem makeGuidanceParts_omitCrisis_no_crisis_part (t : List Char) (p : TextPart)
    (hp : p ∈ makeGuidanceParts t true) : crisisTest p.text = false := by
  unfold makeGuidanceParts at hp
  obtain ⟨i, s, hs, rfl⟩ := mem_mapIdx_ex _ _ _ hp
  have hcf : crisisTest s = false := by
    unfold gpFiltered at hs
    rw [if_pos rfl] at hs
    have := (List.mem_filter.1 hs).2
    simpa using this
  have htr : crisisTest (trimWS s) = false :=
    crisisTest_mono _ _ (trimWS_infix_self s) hcf
  by_cases hi : i < (gpFiltered t true).length - 1
  · simp only [if_pos hi]
    exact crisisTest_append_space _ htr
  · simp only [if_neg hi, List.append_nil]
    exact htr

/-- C3 witness: on `"Call 988 now. Rest well."` with `omitCrisis = true`
the surviving part is crisis-free. -/
theorem makeGuidanceParts_omitCrisis_no_crisis_part_witness :
    (⟨("Rest well.").data, true, false⟩ : TextPart) ∈
      makeGuidanceParts (("Call 988 now. Rest well.").data) true ∧
    crisisTest (TextPart.text ⟨("Rest well.").data, true, false⟩) = false :=
  ⟨by decide,
   makeGuidanceParts_omitCrisis_no_crisis_part (("Call 988 now. Rest well.").data)
     ⟨("Rest well.").data, true, false⟩ (by decide)⟩

-- ---------------------------------------------------------------------------
-- Claim C1
-- ---------------------------------------------------------------------------

/-- C1: `totalScore` returns a total equal to the sum of the eight
standard-domain scores plus the maximum of the two safety-domain scores
(a missing id contributes 0 through `getScore`); the returned safety value
equals that maximum (so when both safety scores are positive it is never
their sum); and when all ten domains are present with scores in 0..3 the
total lies in [0, 27]. -/
theorem totalScore_spec (ans : AnswerMap) :
    (totalScore ans).total =
      getScore ans "interest" + getScore ans "mood" + getScore ans "sleep" +
      getScore ans "energy" + getScore ans "appetite" + getScore ans "self_worth" +
      getScore ans "concentration" + getScore ans "psychomotor" +
      Nat.max (getScore ans "si_dead") (getScore ans "si_harm") ∧
    (totalScore ans).safety = Nat.max (getScore ans "si_dead") (getScore ans "si_harm") ∧
    (1 ≤ (totalScore ans).siDead → 1 ≤ (totalScore ans).siHarm →
      (totalScore ans).safety ≠ (totalScore ans).siDead + (totalScore ans).siHarm) ∧
    ((∀ id ∈ stdIds ++ ["si_dead", "si_harm"], ∃ a, ans id = some a ∧ a.score ≤ 3) →
      (totalScore ans).total ≤ 27) := by
  refine ⟨?_, rfl, ?_, ?_⟩
  · simp only [totalScore, stdIds, List.foldl_cons, List.foldl_nil]
    omega
  · simp only [totalScore]
    intro h1 h2
    unfold Nat.max
    rcases le_total (getScore ans "si_dead") (getScore ans "si_harm") with hle | hle
    · rw [sup_eq_right.2 hle]; omega
    · rw [sup_eq_left.2 hle]; omega
  · intro h
    have gb : ∀ id ∈ stdIds ++ ["si_dead", "si_harm"], getScore ans id ≤ 3 := by
      intro id hid
      obtain ⟨a, ha, hsc⟩ := h id hid
      simpa [getScore, ha] using hsc
    have g1 := gb "interest" (by decide)
    have g2 := gb "mood" (by decide)
    have g3 := gb "sleep" (by decide)
    have g4 := gb "energy" (by decide)
    have g5 := gb "appetite" (by decide)
    have g6 := gb "self_worth" (by decide)
    have g7 := gb "concentration" (by decide)
    have g8 := gb "psychomotor" (by decide)
    have g9 := gb "si_dead" (by decide)
    have g10 := gb "si_harm" (by decide)
    have hm : Nat.max (getScore ans "si_dead") (getScore ans "si_harm") ≤ 3 :=
      Nat.max_le.2 ⟨g9, g10⟩
    simp only [totalScore, stdIds, List.foldl_cons, List.foldl_nil]
    omega

/-- C1 witness: the complete record `ansMax` (eight standard scores of 3,
safety scores 2 and 3) has total 27 ≤ 27 and safety `max 2 3 = 3 ≠ 5`. -/
theorem totalScore_spec_witness :
    (totalScore ansMax).total = 27 ∧ (totalScore ansMax).safety = 3 ∧
    (totalScore ansMax).safety ≠ (totalScore ansMax).siDead + (totalScore ansMax).siHarm ∧
    (totalScore ansMax).total ≤ 27 := by
  have h := totalScore_spec ansMax
  refine ⟨by decide, by decide, h.2.2.1 (by decide) (by decide), h.2.2.2 ?_⟩
  intro id hid
  simp only [stdIds, List.mem_append, List.mem_cons, List.mem_singleton,
    List.not_mem_nil, or_false] at hid
  rcases hid with ⟨rfl | rfl | rfl | rfl | rfl | rfl | rfl | rfl⟩ | rfl | rfl <;>
    exact ⟨_, rfl, by decide⟩

-- ---------------------------------------------------------------------------
-- Claim C4
-- ---------------------------------------------------------------------------

/-- C4: `severityFromTotal` is a pure five-bucket step function of the
total: ≤ 4 Minimal, 5..9 Mild, 10..14 Moderate, 15..19 Moderately severe,
and 20 and above Severe. -/
theorem severityFromTotal_bands (t : Nat) :
    (t ≤ 4 → severityFromTotal t = "Minimal (0–4)") ∧
    (5 ≤ t → t ≤ 9 → severityFromTotal t = "Mild (5–9)") ∧
    (10 ≤ t → t ≤ 14 → severityFromTotal t = "Moderate (10–14)") ∧
    (15 ≤ t → t ≤ 19 → severityFromTotal t = "Moderately severe (15–19)") ∧
    (20 ≤ t → severityFromTotal t = "Severe (20–27)") := by
  unfold severityFromTotal
  refine ⟨?_, ?_, ?_, ?_, ?_⟩ <;> intros <;> split_ifs <;> first | rfl | omega

/-- C4 witness: the nine boundary totals named by the claim. -/
theorem severityFromTotal_bands_witness :
    severityFromTotal 4 = "Minimal (0–4)" ∧ severityFromTotal 5 = "Mild (5–9)" ∧
    severityFromTotal 9 = "Mild (5–9)" ∧ severityFromTotal 10 = "Moderate (10–14)" ∧
    severityFromTotal 14 = "Moderate (10–14)" ∧
    severityFromTotal 15 = "Moderately severe (15–19)" ∧
    severityFromTotal 19 = "Moderately severe (15–19)" ∧
    severityFromTotal 20 = "Severe (20–27)" ∧ severityFromTotal 27 = "Severe (20–27)" :=
  ⟨(severityFromTotal_bands 4).1 (by decide),
   (severityFromTotal_bands 5).2.1 (by decide) (by decide),
   (severityFromTotal_bands 9).2.1 (by decide) (by decide),
   (severityFromTotal_bands 10).2.2.1 (by decide) (by decide),
   (severityFromTotal_bands 14).2.2.1 (by decide) (by decide),
   (severityFromTotal_bands 15).2.2.2.1 (by decide) (by decide),
   (severityFromTotal_bands 19).2.2.2.1 (by decide) (by decide),
   (severityFromTotal_bands 20).2.2.2.2 (by decide),
   (severityFromTotal_bands 27).2.2.2.2 (by decide)⟩

-- ---------------------------------------------------------------------------
-- Claim C2
-- ---------------------------------------------------------------------------

/-- C2: for every run of `finish` (relay outcome abstracted as
`relay : Option String`, `none` covering both a failed call and a thrown
rejection, which the `catch` absorbs): the transcript starts with the recap,
continues with the narrative step (the sanitized guidance on success, the
fixed fallback sentence on failure), and the caution box with its fixed
crisis-resource wording is appended last — after the narrative — exactly
when the computed safety value is positive; when safety is 0 no caution box
appears.  `finishMsgs` is a total function, so no rejection escapes. -/
theorem finish_caution_spec (ans : AnswerMap) (relay : Option String) :
    (0 < (totalScore ans).safety ↔ cautionMsg ∈ finishMsgs ans relay) ∧
    (0 < (totalScore ans).safety → (finishMsgs ans relay).getLast? = some cautionMsg) ∧
    (finishMsgs ans relay).length = 2 + (if 0 < (totalScore ans).safety then 1 else 0) ∧
    ((finishMsgs ans relay)[0]? =
      some (ChatMsg.richParts "assistant" (makeRecapParts (recapText ans).data) false)) ∧
    (relay = none →
      (finishMsgs ans relay)[1]? = some (ChatMsg.plain "assistant" fallbackSentence)) ∧
    (∀ llm, relay = some llm →
      (finishMsgs ans relay)[1]? =
        some (ChatMsg.richParts "assistant"
          (makeGuidanceParts (cleanLLM llm.data) (decide (0 < (totalScore ans).safety))) false)) := by
  have hbox : ∀ (role : String) (ps : List TextPart), ChatMsg.richParts role ps false ≠ cautionMsg := by
    intro role ps h
    simp only [cautionMsg, ChatMsg.richParts.injEq] at h
    exact absurd h.2.2 (by simp)
  have hplain : ∀ (role : String) (c : String), ChatMsg.plain role c ≠ cautionMsg := by
    intro role c h
    simp only [cautionMsg] at h
    exact absurd h (by simp)
  by_cases hs : 0 < (totalScore ans).safety <;> cases relay <;>
    simp_all [finishMsgs, List.getLast?, hbox, hplain] <;>
    constructor <;> intro h <;>
    first
    | exact hbox _ _ h.symm
    | exact hplain _ _ h.symm

/-- C2 witness: scenario B (`safety = 2`) with a failed relay call: the
fallback sentence is at position 1 and the caution box is appended last. -/
theorem finish_caution_spec_witness :
    cautionMsg ∈ finishMsgs ansB none ∧
    (finishMsgs ansB none).getLast? = some cautionMsg ∧
    (finishMsgs ansB none)[1]? = some (ChatMsg.plain "assistant" fallbackSentence) := by
  have h := finish_caution_spec ansB none
  exact ⟨h.1.mp (by decide), h.2.1 (by decide), h.2.2.2.2.1 rfl⟩

-- ---------------------------------------------------------------------------
-- Claim C6
-- ---------------------------------------------------------------------------

theorem joinNL_concat (L : List String) (x : String) :
    ∃ pre, (joinNL (L ++ [x])).data = pre ++ x.data := by
  induction L with
  | nil => exact ⟨[], rfl⟩
  | cons a t ih =>
    obtain ⟨pre, hp⟩ := ih
    cases t with
    | nil =>
      refine ⟨(a ++ "\n").data, ?_⟩
      show (a ++ "\n" ++ x).data = (a ++ "\n").data ++ x.data
      rw [String.data_append]
    | cons b u =>
      refine ⟨(a ++ "\n").data ++ pre, ?_⟩
      have he : joinNL ((a :: b :: u) ++ [x]) = a ++ "\n" ++ joinNL ((b :: u) ++ [x]) := rfl
      rw [he, String.data_append, hp, List.append_assoc]

/-- C6, corrected: the message sequence `finish` sends to the relay is
`[system prompt, recap, total prompt]`, and the recap content sent as the
second message does contain the raw safety-subscore line — the full recap,
including that line, is forwarded verbatim. -/
theorem relayMsgs_carry_safety_line (ans : AnswerMap) :
    relayMsgs ans =
      [⟨"system", SYSTEM_SUMMARY_ONLY⟩, ⟨"user", recapText ans⟩, ⟨"user", totalPrompt ans⟩] ∧
    containsSub (safetyDetailsLine ans).data (recapText ans).data = true := by
  refine ⟨rfl, ?_⟩
  rw [containsSub_true_iff]
  have hsplit : recapLines ans =
      (["Here’s your PHQ-9 summary:", ""] ++ DOMAINS.mapIdx (domainLine ans) ++ [totalLine ans])
        ++ [safetyDetailsLine ans] := by
    simp [recapLines]
  obtain ⟨pre, hp⟩ := joinNL_concat
    (["Here’s your PHQ-9 summary:", ""] ++ DOMAINS.mapIdx (domainLine ans) ++ [totalLine ans])
    (safetyDetailsLine ans)
  unfold recapText
  rw [hsplit, hp]
  exact (List.suffix_append pre _).isInfix

set_option maxRecDepth 8000 in
/-- C6 counterexample: for the scenario-B record the claim fails — the
recap message sent to the relay contains the raw safety-subscore line. -/
theorem relayMsgs_safety_line_cex :
    (⟨"user", recapText ansB⟩ : RelayMsg) ∈ relayMsgs ansB ∧
    containsSub (safetyDetailsLine ansB).data (recapText ansB).data = true := by
  constructor
  · simp [relayMsgs]
  · decide

-- ---------------------------------------------------------------------------
-- Claim C7
-- ---------------------------------------------------------------------------

/-- C7: `containsRiskLanguage` (second server variant, whose pattern set is
the one the claim lists) lower-cases its input — its result depends only on
the lower-cased text — and returns true exactly when the lower-cased text
contains a member of the fixed substring set, which includes "suicide",
"kill myself", "self-harm", "better off dead" and both contraction variants
of the can-not-go-on phrase; the named example inputs evaluate as claimed,
the check is case-insensitive, and there is no word-boundary requirement
(a pattern inside a longer word still matches). -/
theorem containsRiskLanguage_spec :
    (∀ s t : String, lowerL s.data = lowerL t.data →
      ServerV2.containsRiskLanguage s = ServerV2.containsRiskLanguage t) ∧
    (∀ s : String, ServerV2.containsRiskLanguage s = true ↔
      ∃ p ∈ ServerV2.RISK_PATTERNS, p.data <:+: lowerL s.data) ∧
    ("suicide" ∈ ServerV2.RISK_PATTERNS ∧ "kill myself" ∈ ServerV2.RISK_PATTERNS ∧
      "self-harm" ∈ ServerV2.RISK_PATTERNS ∧ "better off dead" ∈ ServerV2.RISK_PATTERNS ∧
      "can’t go on" ∈ ServerV2.RISK_PATTERNS ∧
      (⟨['c', 'a', 'n', ServerV2.apos, 't', ' ', 'g', 'o', ' ', 'o', 'n']⟩ : String) ∈
        ServerV2.RISK_PATTERNS) ∧
    ServerV2.containsRiskLanguage "I want to kill myself" = true ∧
    ServerV2.containsRiskLanguage "I feel okay today" = false ∧
    ServerV2.containsRiskLanguage "I WANT TO KILL MYSELF" = true ∧
    ServerV2.containsRiskLanguage "unsuicidest" = true := by
  refine ⟨?_, ?_, by decide, by decide, by decide, by decide, by decide⟩
  · intro s t h
    unfold ServerV2.containsRiskLanguage
    rw [h]
  · intro s
    unfold ServerV2.containsRiskLanguage
    rw [List.any_eq_true]
    exact exists_congr (fun p => and_congr_right (fun _ => containsSub_true_iff _ _))

/-- C7 witness: case-insensitivity instantiated on a concrete mixed-case
pair, plus the claim's positive example. -/
theorem containsRiskLanguage_spec_witness :
    ServerV2.containsRiskLanguage "KILL Myself please" =
      ServerV2.containsRiskLanguage "kill myself please" ∧
    ServerV2.containsRiskLanguage "I want to kill myself" = true :=
  ⟨containsRiskLanguage_spec.1 "KILL Myself please" "kill myself please" (by decide),
   containsRiskLanguage_spec.2.2.2.1⟩

-- ---------------------------------------------------------------------------
-- Claim C8
-- ---------------------------------------------------------------------------

/-- C8: `sanitizeQuestionText` returns the fixed generic question exactly
when the whitespace-normalized text both ends in a question mark and leaks
forbidden content — embedded answer-option wording, list/bullet markers, a
slash-separated enumeration or a colon-comma enumeration (`looksListy`),
more than one sentence, or length over the 240-unit cap (`tooLongQ`) — and
in every other case returns the whitespace-normalized input unchanged (the
equivalence is stated for inputs whose normalization is not itself the
generic question, where the two behaviours are indistinguishable). -/
theorem sanitizeQuestionText_spec (text : String) :
    (sanitizeQuestionText text =
      if (choicesRx (normalizeQ text) || looksListy (normalizeQ text) || tooLongQ (normalizeQ text))
          && endsWithQ (normalizeQ text) then genericQuestion
      else ⟨normalizeQ text⟩) ∧
    ((⟨normalizeQ text⟩ : String) ≠ genericQuestion →
      (sanitizeQuestionText text = genericQuestion ↔
        ((choicesRx (normalizeQ text) || looksListy (normalizeQ text) || tooLongQ (normalizeQ text))
          && endsWithQ (normalizeQ text)) = true)) := by
  have heq : sanitizeQuestionText text =
      if (choicesRx (normalizeQ text) || looksListy (normalizeQ text) || tooLongQ (normalizeQ text))
          && endsWithQ (normalizeQ text) then genericQuestion
      else ⟨normalizeQ text⟩ := by
    by_cases h : text = ""
    · subst h; decide
    · unfold sanitizeQuestionText
      rw [if_neg h]
  refine ⟨heq, ?_⟩
  intro hne
  rw [heq]
  by_cases hc : ((choicesRx (normalizeQ text) || looksListy (normalizeQ text) ||
      tooLongQ (normalizeQ text)) && endsWithQ (normalizeQ text)) = true
  · rw [if_pos hc]
    exact ⟨fun _ => hc, fun _ => rfl⟩
  · rw [if_neg hc]
    exact ⟨fun h => absurd h hne, fun h => absurd h hc⟩

/-- C8 witness: a slash-enumeration question is replaced by the generic
question; a clean single question is only whitespace-normalized. -/
theorem sanitizeQuestionText_spec_witness :
    sanitizeQuestionText "Do you feel tired / sad / low?" = genericQuestion ∧
    sanitizeQuestionText "  How often   have you felt down?  " =
      "How often have you felt down?" := by
  have h1 := sanitizeQuestionText_spec "Do you feel tired / sad / low?"
  have h2 := sanitizeQuestionText_spec "  How often   have you felt down?  "
  refine ⟨(h1.2 (by decide)).mpr (by decide), ?_⟩
  rw [h2.1]
  decide

-- ---------------------------------------------------------------------------
-- Claim C10
-- ---------------------------------------------------------------------------

/-- C10: in both `POST /api/llm` handlers the credential check precedes
request validation: with the server credential absent, every request — even
one whose `messages` array is missing or empty — gets the 500
missing-credential response and never the 400 invalid-input response. -/
theorem credential_check_precedes_validation (body : Option (List RelayMsg)) (up : Upstream) :
    ServerV1.handle none body up = .json 500 (.err "Missing OPENAI_API_KEY") ∧
    ServerV2.handle none body up = .text 500 "Missing OPENAI_API_KEY" ∧
    (∀ e, ServerV1.handle none body up ≠ .json 400 (.err e)) ∧
    (∀ e, ServerV2.handle none body up ≠ .json 400 (.err e)) := by
  refine ⟨rfl, rfl, ?_, ?_⟩ <;> intro e h <;>
    simp [ServerV1.handle, ServerV2.handle] at h

/-- C10 witness: the missing-credential response on an empty-messages
request. -/
theorem credential_check_precedes_validation_witness :
    ServerV1.handle none (some []) (.netErr "down") =
      .json 500 (.err "Missing OPENAI_API_KEY") ∧
    ServerV1.handle none (some []) (.netErr "down") ≠
      .json 400 (.err "\"messages\" array required") :=
  ⟨(credential_check_precedes_validation (some []) (.netErr "down")).1,
   (credential_check_precedes_validation (some []) (.netErr "down")).2.2.1 _⟩

-- ---------------------------------------------------------------------------
-- Claim C5
-- ---------------------------------------------------------------------------

/-- C5 counterexample: with a configured credential and non-empty messages,
an upstream 503 makes the first-variant relay return a 502 error response —
not the fixed fallback reply — and a network error yields a 500 error
response. -/
theorem relay_fallback_claim_cex :
    ServerV1.handle (some "k") (some [⟨"user", "hello"⟩]) (.httpErr 503 "boom") ≠
      .json 200 (.reply ServerV1.fallbackReply) ∧
    ServerV1.handle (some "k") (some [⟨"user", "hello"⟩]) (.netErr "connect ECONNREFUSED") ≠
      .json 200 (.reply ServerV1.fallbackReply) ∧
    ServerV1.handle (some "k") (some [⟨"user", "hello"⟩]) (.httpErr 503 "boom") =
      .json 502 (.errStat "OpenAI error" 503 "boom") := by
  decide

/-- C5, corrected: with a configured credential and non-empty messages, the
first-variant relay answers a network-layer error with 500
`{error: 'Server error', detail}` and an upstream non-2xx with 502
`{error: 'OpenAI error', status, body}`; the fixed fallback reply is
returned only when the 2xx upstream body is unparseable or has no
extractable text.  The second variant passes an upstream non-2xx status and
body through as a text response (when its crisis guard does not fire).
Only the missing credential yields the distinct loud 500 with its explicit
message (claim C10's theorem). -/
theorem relay_upstream_error_responses (k : String) (msgs : List RelayMsg)
    (emsg b : String) (s : Nat) (d : RespData) (hne : msgs ≠ []) :
    ServerV1.handle (some k) (some msgs) (.netErr emsg) =
      .json 500 (.errDetail "Server error" emsg) ∧
    ServerV1.handle (some k) (some msgs) (.httpErr s b) =
      .json 502 (.errStat "OpenAI error" s b) ∧
    ServerV1.handle (some k) (some msgs) (.ok none) = .json 200 (.reply ServerV1.fallbackReply) ∧
    (ServerV1.extractReply d = none →
      ServerV1.handle (some k) (some msgs) (.ok (some d)) =
        .json 200 (.reply ServerV1.fallbackReply)) ∧
    ((msgs.any (fun m => summaryHint m.content) = true ∨
        ServerV2.containsRiskLanguage (recentUserText msgs) = false) →
      ServerV2.handle (some k) (some msgs) (.httpErr s b) = .text s b) := by
  have hle : msgs.isEmpty = false := by simpa [List.isEmpty_iff] using hne
  refine ⟨?_, ?_, ?_, ?_, ?_⟩
  · simp [ServerV1.handle, hle]
  · simp [ServerV1.handle, hle]
  · simp [ServerV1.handle, hle]
  · intro hx
    simp [ServerV1.handle, hle, hx]
  · intro hg
    rcases hg with hsum | hrisk
    · simp [ServerV2.handle, hle, hsum]
    · by_cases hsum : msgs.any (fun m => summaryHint m.content)
      · simp [ServerV2.handle, hle, hsum]
      · simp [ServerV2.handle, hle, hsum, hrisk]

/-- C5 witness: concrete upstream failures for both variants. -/
theorem relay_upstream_error_responses_witness :
    ServerV1.handle (some "k") (some [⟨"user", "hi there"⟩]) (.httpErr 502 "bad gateway") =
      .json 502 (.errStat "OpenAI error" 502 "bad gateway") ∧
    ServerV2.handle (some "k") (some [⟨"user", "hi there"⟩]) (.httpErr 502 "bad gateway") =
      .text 502 "bad gateway" := by
  have h := relay_upstream_error_responses "k" [⟨"user", "hi there"⟩] "x" "bad gateway" 502
    ⟨none, none, none, none, []⟩ (by decide)
  exact ⟨h.2.1, h.2.2.2.2 (Or.inr (by decide))⟩

-- ---------------------------------------------------------------------------
-- Claim C9: whitespace-structure lemmas
-- ---------------------------------------------------------------------------

theorem noWsPair_cons_of_not_ws (c : Char) (z : List Char) (hc : isWS c = false)
    (hz : noWsPair z = true) : noWsPair (c :: z) = true := by
  cases z with
  | nil => rfl
  | cons b r =>
    show (!(isWS c && isWS b) && noWsPair (b :: r)) = true
    rw [hc, hz]
    rfl

theorem noWsPair_cons_headOK (w : Char) (z : List Char)
    (hz : noWsPair z = true) (hh : ∀ c, z.head? = some c → isWS c = false) :
    noWsPair (w :: z) = true := by
  cases z with
  | nil => rfl
  | cons b r =>
    show (!(isWS w && isWS b) && noWsPair (b :: r)) = true
    rw [hh b rfl, hz]
    simp

theorem noWsPair_tail (a : Char) (z : List Char) (h : noWsPair (a :: z) = true) :
    noWsPair z = true := by
  cases z with
  | nil => rfl
  | cons b r =>
    have hh : (!(isWS a && isWS b) && noWsPair (b :: r)) = true := h
    rw [Bool.and_eq_true] at hh
    exact hh.2

theorem noWsPair_append_right (a b : List Char) (h : noWsPair (a ++ b) = true) :
    noWsPair b = true := by
  induction a with
  | nil => exact h
  | cons c r ih => exact ih (noWsPair_tail c _ h)

theorem noWsPair_append_left (a b : List Char) (h : noWsPair (a ++ b) = true) :
    noWsPair a = true := by
  induction a with
  | nil => rfl
  | cons c r ih =>
    cases r with
    | nil => rfl
    | cons d u =>
      have hp : (!(isWS c && isWS d) && noWsPair ((d :: u) ++ b)) = true := h
      rw [Bool.and_eq_true] at hp
      obtain ⟨h1, h2⟩ := hp
      show (!(isWS c && isWS d) && noWsPair (d :: u)) = true
      rw [h1, ih h2]
      rfl

theorem noWsPair_mono (x y : List Char) (hxy : x <:+: y) (h : noWsPair y = true) :
    noWsPair x = true := by
  obtain ⟨s, t, rfl⟩ := hxy
  exact noWsPair_append_left _ _ (noWsPair_append_right s _ (by rwa [List.append_assoc] at h))

theorem noWsPair_append (a b : List Char) (ha : noWsPair a = true) (hb : noWsPair b = true)
    (hedge : ∀ ca cb, a.getLast? = some ca → b.head? = some cb → (isWS ca && isWS cb) = false) :
    noWsPair (a ++ b) = true := by
  induction a with
  | nil => exact hb
  | cons x r ih =>
    cases r with
    | nil =>
      cases b with
      | nil => rfl
      | cons y t =>
        show (!(isWS x && isWS y) && noWsPair (y :: t)) = true
        rw [hedge x y rfl rfl, hb]
        rfl
    | cons d u =>
      have hp : (!(isWS x && isWS d) && noWsPair (d :: u)) = true := ha
      rw [Bool.and_eq_true] at hp
      obtain ⟨h1, h2⟩ := hp
      have htail : noWsPair ((d :: u) ++ b) = true := by
        refine ih h2 ?_
        intro ca cb hca hcb
        refine hedge ca cb ?_ hcb
        rw [List.getLast?_cons_cons]
        exact hca
      show (!(isWS x && isWS d) && noWsPair ((d :: u) ++ b)) = true
      rw [h1, htail]
      rfl

theorem collapseGo_noWsPair (l : List Char) : ∀ st, noWsPair (collapseGo st l) = true := by
  induction l with
  | nil => intro st; cases st <;> rfl
  | cons c rest ih =>
    intro st
    show noWsPair (if isWS c then collapseGo (wsBump st c) rest
      else wsFlush st ++ c :: collapseGo .nil rest) = true
    by_cases hws : isWS c
    · rw [if_pos hws]; exact ih _
    · rw [if_neg hws]
      have hz : noWsPair (c :: collapseGo .nil rest) = true :=
        noWsPair_cons_of_not_ws c _ (by simpa using hws) (ih _)
      cases st with
      | nil => exact hz
      | one w =>
        show noWsPair (w :: c :: collapseGo .nil rest) = true
        refine noWsPair_cons_headOK w _ hz ?_
        intro e he
        simp only [List.head?_cons, Option.some.injEq] at he
        subst he
        simpa using hws
      | many =>
        show noWsPair (' ' :: c :: collapseGo .nil rest) = true
        refine noWsPair_cons_headOK ' ' _ hz ?_
        intro e he
        simp only [List.head?_cons, Option.some.injEq] at he
        subst he
        simpa using hws

theorem collapseGo_fix (l : List Char) :
    (noWsPair l = true → collapseGo .nil l = l) ∧
    (∀ c, isWS c = true → noWsPair (c :: l) = true → collapseGo (.one c) l = c :: l) := by
  induction l with
  | nil =>
    refine ⟨fun _ => rfl, fun c _ _ => rfl⟩
  | cons d rest ih =>
    constructor
    · intro h
      show (if isWS d then collapseGo (wsBump .nil d) rest
        else wsFlush .nil ++ d :: collapseGo .nil rest) = d :: rest
      by_cases hws : isWS d
      · rw [if_pos hws]
        exact ih.2 d hws h
      · rw [if_neg hws]
        have := ih.1 (noWsPair_tail d rest h)
        simp only [wsFlush, List.nil_append, this]
    · intro c hc h
      show (if isWS d then collapseGo (wsBump (.one c) d) rest
        else wsFlush (.one c) ++ d :: collapseGo .nil rest) = c :: d :: rest
      have hpair : (!(isWS c && isWS d) && noWsPair (d :: rest)) = true := h
      rw [Bool.and_eq_true] at hpair
      obtain ⟨h1, h2⟩ := hpair
      have hd : isWS d = false := by
        cases hdd : isWS d
        · rfl
        · rw [hc, hdd] at h1; exact absurd h1 (by simp)
      rw [if_neg (by simp [hd])]
      have := ih.1 (noWsPair_tail d rest h2)
      show c :: d :: collapseGo .nil rest = c :: d :: rest
      rw [this]

theorem collapseWS_eq_self (l : List Char) (h : noWsPair l = true) : collapseWS l = l :=
  (collapseGo_fix l).1 h

theorem head_append_left (x z : List Char) (hx : x ≠ []) : (x ++ z).head? = x.head? := by
  cases x with
  | nil => exact absurd rfl hx
  | cons a r => rfl

theorem mem_of_getLast?_eq (l : List Char) (c : Char) (h : l.getLast? = some c) : c ∈ l := by
  induction l with
  | nil => exact absurd h (by simp)
  | cons a r ih =>
    cases r with
    | nil =>
      simp only [List.getLast?_singleton, Option.some.injEq] at h
      subst h
      exact List.mem_singleton_self a
    | cons b u =>
      rw [List.getLast?_cons_cons] at h
      exact List.mem_cons_of_mem a (ih h)

theorem trimWS_ne_nil (l : List Char) (c : Char) (hc : l.getLast? = some c)
    (hws : isWS c = false) : trimWS l ≠ [] := by
  have hlne : l ≠ [] := by intro h; rw [h] at hc; exact absurd hc (by simp)
  have hd : l.dropWhile isWS ≠ [] := by
    intro hnil
    have hall : ∀ x ∈ l, isWS x = true := by
      intro x hx
      by_contra hxx
      have := List.dropWhile_eq_nil_iff.1 hnil
      exact hxx (this x hx)
    have hcl : c ∈ l := mem_of_getLast?_eq l c hc
    rw [hall c hcl] at hws
    exact absurd hws (by simp)
  have hgl : (l.dropWhile isWS).getLast? = some c := by
    obtain ⟨pre, hpre⟩ := List.dropWhile_suffix (l := l) isWS
    rw [← hpre] at hc
    rwa [List.getLast?_append_of_ne_nil _ hd] at hc
  have hrev : (l.dropWhile isWS).reverse.head? = some c := by
    rw [List.head?_reverse]
    exact hgl
  intro htr
  unfold trimWS at htr
  rw [List.reverse_eq_nil_iff] at htr
  cases hrv : (l.dropWhile isWS).reverse with
  | nil => rw [hrv] at hrev; exact absurd hrev (by simp)
  | cons a r =>
    rw [hrv] at htr hrev
    simp only [List.head?_cons, Option.some.injEq] at hrev
    subst hrev
    rw [List.dropWhile_cons, if_neg (by simp [hws])] at htr
    exact absurd htr (by simp)

theorem sepJoin_ne_nil (x : List Char) (r : List (List Char)) (hx : x ≠ []) :
    sepJoin (x :: r) ≠ [] := by
  cases r with
  | nil => exact hx
  | cons y u =>
    show x ++ ' ' :: sepJoin (y :: u) ≠ []
    simp

theorem sepJoin_head (x : List Char) (r : List (List Char)) (hx : x ≠ []) :
    (sepJoin (x :: r)).head? = x.head? := by
  cases r with
  | nil => rfl
  | cons y u => exact head_append_left x _ hx

theorem sepJoin_getLast (x y : List Char) (r : List (List Char))
    (hS : sepJoin (y :: r) ≠ []) :
    (sepJoin (x :: y :: r)).getLast? = (sepJoin (y :: r)).getLast? := by
  show (x ++ ' ' :: sepJoin (y :: r)).getLast? = _
  rw [List.getLast?_append_of_ne_nil _ (by simp : (' ' :: sepJoin (y :: r) : List Char) ≠ [])]
  show ([' '] ++ sepJoin (y :: r)).getLast? = _
  rw [List.getLast?_append_of_ne_nil _ hS]

theorem sepJoin_good (L : List (List Char))
    (hL : ∀ x ∈ L, x ≠ [] ∧ (∀ c, x.head? = some c → isWS c = false) ∧
      (∀ c, x.getLast? = some c → isWS c = false) ∧ noWsPair x = true) :
    noWsPair (sepJoin L) = true ∧
    (∀ c, (sepJoin L).head? = some c → isWS c = false) ∧
    (∀ c, (sepJoin L).getLast? = some c → isWS c = false) := by
  induction L with
  | nil => exact ⟨rfl, by simp [sepJoin], by simp [sepJoin]⟩
  | cons x L' ih =>
    obtain ⟨hxne, hxh, hxl, hxnp⟩ := hL x (List.mem_cons_self x L')
    cases L' with
    | nil => exact ⟨hxnp, hxh, hxl⟩
    | cons y r =>
      have hLt : ∀ z ∈ y :: r, z ≠ [] ∧ (∀ c, z.head? = some c → isWS c = false) ∧
          (∀ c, z.getLast? = some c → isWS c = false) ∧ noWsPair z = true :=
        fun z hz => hL z (List.mem_cons_of_mem _ hz)
      obtain ⟨hSnp, hSh, hSl⟩ := ih hLt
      obtain ⟨hyne, _, _, _⟩ := hLt y (List.mem_cons_self y r)
      have hSne : sepJoin (y :: r) ≠ [] := sepJoin_ne_nil y r hyne
      refine ⟨?_, ?_, ?_⟩
      · show noWsPair (x ++ ' ' :: sepJoin (y :: r)) = true
        refine noWsPair_append x _ hxnp ?_ ?_
        · exact noWsPair_cons_headOK ' ' _ hSnp hSh
        · intro ca cb hca _
          rw [hxl ca hca]
          rfl
      · intro c hc
        rw [show sepJoin (x :: y :: r) = x ++ ' ' :: sepJoin (y :: r) from rfl,
          head_append_left _ _ hxne] at hc
        exact hxh c hc
      · intro c hc
        rw [sepJoin_getLast x y r hSne] at hc
        exact hSl c hc

-- ---------------------------------------------------------------------------
-- Claim C9: sentence-splitter lemmas
-- ---------------------------------------------------------------------------

theorem sentSplitGo_mem_sub (l : List Char) :
    ∀ (acc s : List Char), s ∈ sentSplitGo acc l → s <:+: (acc.reverse ++ l) := by
  induction l with
  | nil =>
    intro acc s hs
    exact absurd hs (by simp [sentSplitGo])
  | cons c rest ih =>
    intro acc s hs
    simp only [sentSplitGo] at hs
    split at hs
    · split at hs
      · have := ih [] s hs
        simp only [List.reverse_nil, List.nil_append] at this
        exact this.trans ((List.suffix_cons c rest).isInfix.trans
          (List.suffix_append acc.reverse (c :: rest)).isInfix)
      · rcases List.mem_cons.1 hs with rfl | hmem
        · refine ⟨[], rest, ?_⟩
          simp
        · have := ih [] s hmem
          simp only [List.reverse_nil, List.nil_append] at this
          exact this.trans ((List.suffix_cons c rest).isInfix.trans
            (List.suffix_append acc.reverse (c :: rest)).isInfix)
    · have := ih (c :: acc) s hs
      simpa [List.append_assoc] using this

theorem sentSplitGo_mem_last (l : List Char) :
    ∀ (acc s : List Char), s ∈ sentSplitGo acc l →
      ∃ c, s.getLast? = some c ∧ (c = '.' ∨ c = '!' ∨ c = '?') := by
  induction l with
  | nil =>
    intro acc s hs
    exact absurd hs (by simp [sentSplitGo])
  | cons c rest ih =>
    intro acc s hs
    simp only [sentSplitGo] at hs
    split at hs
    · rename_i hterm
      split at hs
      · exact ih [] s hs
      · rcases List.mem_cons.1 hs with rfl | hmem
        · refine ⟨c, List.getLast?_concat _, ?_⟩
          have := hterm
          simp only [Bool.or_eq_true, decide_eq_true_eq] at this
          tauto
        · exact ih [] s hmem
    · exact ih (c :: acc) s hs

theorem gpFiltered_sub_sents (t : List Char) (o : Bool) (s : List Char)
    (hs : s ∈ gpFiltered t o) : s ∈ gpSents t := by
  cases o with
  | false => simpa [gpFiltered] using hs
  | true =>
    unfold gpFiltered at hs
    rw [if_pos rfl] at hs
    exact (List.mem_filter.1 hs).1

theorem gpSents_sub (t s : List Char) (hs : s ∈ gpSents t) : s <:+: t := by
  unfold gpSents at hs
  by_cases hm : (matchSentences t).isEmpty
  · rw [if_pos hm] at hs
    simp only [List.mem_singleton] at hs
    subst hs
    exact List.infix_refl _
  · rw [if_neg hm] at hs
    have := sentSplitGo_mem_sub t [] s hs
    simpa using this

theorem matchSentences_last (t s : List Char) (hs : s ∈ matchSentences t) :
    ∃ c, s.getLast? = some c ∧ isWS c = false := by
  obtain ⟨c, hc, hor⟩ := sentSplitGo_mem_last t [] s hs
  refine ⟨c, hc, ?_⟩
  rcases hor with rfl | rfl | rfl <;> rfl

theorem map_mapIdx_comp {α β γ : Type} (L : List α) (f : Nat → α → β) (g : β → γ) :
    (L.mapIdx f).map g = L.mapIdx (fun i a => g (f i a)) := by
  induction L generalizing f with
  | nil => simp
  | cons a t ih => rw [List.mapIdx_cons, List.mapIdx_cons, List.map_cons, ih]

theorem flatten_mapIdx_sep (L : List (List Char)) :
    (L.mapIdx (fun i s => trimWS s ++ (if i < L.length - 1 then [' '] else []))).flatten =
      sepJoin (L.map trimWS) := by
  induction L with
  | nil => rfl
  | cons x L' ih =>
    cases L' with
    | nil =>
      rw [List.mapIdx_cons, List.mapIdx_nil]
      simp [sepJoin]
    | cons y r =>
      rw [List.mapIdx_cons]
      have hfun : (fun i s => trimWS s ++
            (if i + 1 < (x :: y :: r).length - 1 then [' '] else [])) =
          (fun i s => trimWS s ++ (if i < (y :: r).length - 1 then [' '] else [])) := by
        funext i s
        congr 1
        exact if_congr (by simp only [List.length_cons]; omega) rfl rfl
      rw [hfun, List.flatten_cons, ih]
      rw [if_pos (by simp)]
      show (trimWS x ++ [' ']) ++ sepJoin ((y :: r).map trimWS) =
        sepJoin (trimWS x :: trimWS y :: r.map trimWS)
      rw [show sepJoin (trimWS x :: trimWS y :: r.map trimWS) =
        trimWS x ++ ' ' :: sepJoin (trimWS y :: r.map trimWS) from rfl]
      simp [List.append_assoc]

theorem concatText_guidance (t : List Char) (o : Bool) :
    concatText (makeGuidanceParts t o) = sepJoin ((gpFiltered t o).map trimWS) := by
  unfold concatText makeGuidanceParts
  rw [map_mapIdx_comp]
  exact flatten_mapIdx_sep (gpFiltered t o)

theorem cleanLLM_noWsPair (t : List Char) : noWsPair (cleanLLM t) = true :=
  noWsPair_mono _ _ (trimWS_infix_self _) (collapseGo_noWsPair _ _)

theorem concat_guidance_facts (t : List Char) (o : Bool) :
    noWsPair (concatText (makeGuidanceParts (cleanLLM t) o)) = true ∧
    (∀ c, (concatText (makeGuidanceParts (cleanLLM t) o)).head? = some c → isWS c = false) ∧
    (∀ c, (concatText (makeGuidanceParts (cleanLLM t) o)).getLast? = some c → isWS c = false) := by
  rw [concatText_guidance]
  rcases hLs : (gpFiltered (cleanLLM t) o).map trimWS with _ | ⟨x, L'⟩
  · exact ⟨rfl, by simp [sepJoin], by simp [sepJoin]⟩
  · have hnp : ∀ s ∈ gpFiltered (cleanLLM t) o, noWsPair (trimWS s) = true := by
      intro s hsm
      have hin : s <:+: cleanLLM t := gpSents_sub _ _ (gpFiltered_sub_sents _ _ _ hsm)
      exact noWsPair_mono _ _ ((trimWS_infix_self s).trans hin) (cleanLLM_noWsPair t)
    cases L' with
    | nil =>
      have hx : ∃ s ∈ gpFiltered (cleanLLM t) o, trimWS s = x := by
        have hmem : x ∈ (gpFiltered (cleanLLM t) o).map trimWS := by
          rw [hLs]; exact List.mem_singleton_self x
        simpa [List.mem_map] using hmem
      obtain ⟨s, hsm, rfl⟩ := hx
      exact ⟨hnp s hsm, trimWS_head_false s, trimWS_last_false s⟩
    | cons y r =>
      -- at least two parts: the sentence matcher produced them, so every
      -- element ends in a sentence terminator and its trim is nonempty
      have hmatched : (matchSentences (cleanLLM t)).isEmpty = false := by
        by_contra hne
        have hem : (matchSentences (cleanLLM t)).isEmpty = true := by
          cases hh : (matchSentences (cleanLLM t)).isEmpty
          · exact absurd hh hne
          · rfl
        have hlen : (gpFiltered (cleanLLM t) o).length ≤ 1 := by
          have hone : (gpSents (cleanLLM t)).length = 1 := by
            unfold gpSents
            rw [if_pos hem]
            rfl
          cases o with
          | false => simp [gpFiltered, hone]
          | true =>
            unfold gpFiltered
            rw [if_pos rfl]
            calc ((gpSents (cleanLLM t)).filter (fun s => !crisisTest s)).length
                ≤ (gpSents (cleanLLM t)).length := List.length_filter_le _ _
              _ = 1 := hone
        have hlen2 : (gpFiltered (cleanLLM t) o).length = ((gpFiltered (cleanLLM t) o).map trimWS).length := by
          rw [List.length_map]
        rw [hLs] at hlen2
        simp at hlen2
        omega
      have hsent : ∀ s ∈ gpFiltered (cleanLLM t) o, s ∈ matchSentences (cleanLLM t) := by
        intro s hsm
        have := gpFiltered_sub_sents _ _ _ hsm
        unfold gpSents at this
        rwa [if_neg (by simp [hmatched])] at this
      refine sepJoin_good _ ?_
      intro z hz
      rw [← hLs] at hz
      obtain ⟨s, hsm, rfl⟩ := List.mem_map.1 hz
      obtain ⟨c, hc, hcws⟩ := matchSentences_last _ _ (hsent s hsm)
      exact ⟨trimWS_ne_nil s c hc hcws, trimWS_head_false s, trimWS_last_false s, hnp s hsm⟩

-- ---------------------------------------------------------------------------
-- Claim C9
-- ---------------------------------------------------------------------------

/-- C9 counterexample: the artifact-cleanup stage is not idempotent on every
input.  For the reply `"Hi.S.x"` the cleanup chain leaves the text
unchanged, `makeGuidanceParts` splits it into the parts `"Hi. "` and
`"S."`, and re-running the cleanup on the concatenated text `"Hi. S."`
strips the now-trailing `"S."` artifact, giving `"Hi."`. -/
theorem cleanLLM_guidance_not_idempotent :
    cleanLLM (concatText (makeGuidanceParts (cleanLLM ("Hi.S.x").data) false)) ≠
      concatText (makeGuidanceParts (cleanLLM ("Hi.S.x").data) false) := by
  decide

/-- C9, corrected: a second pass of the cleanup chain can only remove
residual word-boundary `S.` artifacts that the first pass left behind
(as in the counterexample input).  Whenever the two artifact-strip stages
find nothing in the concatenated text of `makeGuidanceParts`'s output —
which was built from already-cleaned text — the whitespace-collapse and
trim stages are identities on it, so the cleanup returns it unchanged. -/
theorem cleanLLM_guidance_idempotent (t : List Char) (o : Bool)
    (h1 : stripTrailS (concatText (makeGuidanceParts (cleanLLM t) o)) =
      concatText (makeGuidanceParts (cleanLLM t) o))
    (h2 : stripMidS (concatText (makeGuidanceParts (cleanLLM t) o)) =
      concatText (makeGuidanceParts (cleanLLM t) o)) :
    cleanLLM (concatText (makeGuidanceParts (cleanLLM t) o)) =
      concatText (makeGuidanceParts (cleanLLM t) o) := by
  obtain ⟨hnp, hh, hl⟩ := concat_guidance_facts t o
  show trimWS (collapseWS (stripMidS (stripTrailS
    (concatText (makeGuidanceParts (cleanLLM t) o))))) = _
  rw [h1, h2, collapseWS_eq_self _ hnp, trimWS_eq_self _ hh hl]

/-- C9 witness: on `"Be kind. Rest well."` the strip stages find nothing in
the concatenated output and the cleanup leaves it unchanged. -/
theorem cleanLLM_guidance_idempotent_witness :
    cleanLLM (concatText (makeGuidanceParts (cleanLLM ("Be kind. Rest well.").data) false)) =
      concatText (makeGuidanceParts (cleanLLM ("Be kind. Rest well.").data) false) :=
  cleanLLM_guidance_idempotent (("Be kind. Rest well.").data) false (by decide) (by decide)
